import Mathlib

/-
  Verification development for the cleanheap heap-snapshot cleaner.

  The source program (src/index.ts) walks the flat node array of a V8-style
  heap snapshot, classifies nodes by constructor name, tombstones the edge
  runs of weak-retainer nodes with null, compacts the edge array, and
  serializes the result.

  Shallow embedding notes.  JavaScript numbers that appear here are integers;
  the values undefined, null and NaN only ever arise from out-of-bounds array
  reads and from arithmetic on such reads, and in every operation the program
  performs on them (addition, comparison, array indexing, truthiness) they
  behave identically, so all three are collapsed into the value none of
  (Option Int), called JVal below.  Array writes at an index beyond the
  current length extend the array (the holes read back as none, and the
  compaction filter drops them, exactly as Array.prototype.filter skips
  holes and the tombstone null is filtered out); writes at negative indices
  create invisible object properties and are modelled as no-ops (no code
  path reads such a property back through an element read).  A for loop with
  step 0 over a nonempty range does not terminate in the source; theorems
  that need termination carry positivity hypotheses on the field widths.
-/

namespace Cleanheap

/-- A JavaScript array slot value: some n for a number, none for
undefined, null or NaN (the distinction is inert in every operation the
program performs on these values). -/
abbrev JVal := Option Int

/-- JavaScript array element read arr[i]: the stored value in bounds,
none (undefined) out of bounds or at a negative or NaN index. -/
def jsGet (l : List JVal) (i : Int) : JVal :=
  if 0 ≤ i then ((l.get? i.toNat).join) else none

/-- JavaScript array element write arr[i] = v: in-place in bounds, array
extension with holes beyond the length, no-op at a negative index (a
negative index makes an object property that no element read observes). -/
def jsSet (l : List JVal) (i : Int) (v : JVal) : List JVal :=
  if 0 ≤ i then
    let n := i.toNat
    if n < l.length then l.set n v
    else l ++ List.replicate (n - l.length) none ++ [v]
  else l

/-- JavaScript + on two values, absorbing NaN/undefined. -/
def oadd : JVal → JVal → JVal
  | some a, some b => some (a + b)
  | _, _ => none

/-- JavaScript truthiness of a string-or-absent value: undefined and the
empty string are falsy. -/
def jsTruthyStr : Option String → Bool
  | none => false
  | some s => s ≠ ""

/-- fieldOffsets from the source: Object.fromEntries(fields.map((field,
offset) => [field, offset])), queried by name.  With duplicate field names
the later entry wins, as in Object.fromEntries. -/
def fieldOffsets (fields : List String) (name : String) : Option Nat :=
  fields.enum.foldl (fun acc p => if p.2 = name then some p.1 else acc) none

/-- snapshot.meta of the input file.  node_types entries are modelled as
string lists (the source casts the entry it uses with `as string[]`). -/
structure HeapSnapshotMeta where
  node_fields : List String
  node_types : List (List String)
  edge_fields : List String
  edge_types : List (List String)
deriving DecidableEq, Repr

/-- The snapshot top-level header object (key "snapshot" of the file). -/
structure SnapshotHeader where
  meta : HeapSnapshotMeta
  node_count : Int
  edge_count : Int
deriving DecidableEq, Repr

/-- The whole snapshot document.  nodes and edges are JVal lists because
the cleaning pass mutates them in place and can leave null/NaN slots; an
input file parsed from JSON has every slot some.  rest holds the remaining
top-level keys with their already-serialized JSON values. -/
structure HeapSnapshot where
  snapshot : SnapshotHeader
  nodes : List JVal
  edges : List JVal
  strings : List String
  rest : List (String × String)
deriving DecidableEq, Repr

/-- The fixed weak-retainer constructor-name set from the source. -/
def WeakRetainerNames : List String :=
  ["WeakMap", "WeakSet", "WeakRef", "DebugWeakCache", "DebugWeakMap"]

/-- Snapshot constructor field: field-name-to-offset map for node records. -/
def nodeOffsets (d : HeapSnapshot) : String → Option Nat :=
  fieldOffsets d.snapshot.meta.node_fields

/-- Snapshot constructor field: field-name-to-offset map for edge records. -/
def edgeOffsets (d : HeapSnapshot) : String → Option Nat :=
  fieldOffsets d.snapshot.meta.edge_fields

/-- Snapshot constructor field: meta.node_types[nodeOffsets.type]; none
when the type field or the table entry is missing (undefined in the source,
where the cast `as string[]` hides it). -/
def nodeTypeEnum (d : HeapSnapshot) : Option (List String) :=
  (nodeOffsets d "type").bind (fun i => d.snapshot.meta.node_types.get? i)

/-- Snapshot constructor field: meta.edge_types[edgeOffsets.type]. -/
def edgeTypeEnum (d : HeapSnapshot) : Option (List String) :=
  (edgeOffsets d "type").bind (fun i => d.snapshot.meta.edge_types.get? i)

/-- nodes[nodeIndex + offset] where the offset itself may be undefined
(an absent field name): an undefined offset makes the index NaN and the
read yields undefined. -/
def fieldValueAt (nodes : List JVal) (off : Option Nat) (i : Nat) : JVal :=
  match off with
  | some o => jsGet nodes ((i : Int) + (o : Int))
  | none => none

/-- The decoded node type string nodeTypeEnum[nodes[i + typeOffset]]. -/
def decodedType (nodes : List JVal) (enum : List String) (toff : Option Nat) (i : Nat) :
    Option String :=
  (fieldValueAt nodes toff i).bind (fun v => if 0 ≤ v then enum.get? v.toNat else none)

/-- The string-table lookup strings[nodes[i + nameOffset]]. -/
def nameAt (nodes : List JVal) (strings : List String) (noff : Option Nat) (i : Nat) :
    Option String :=
  (fieldValueAt nodes noff i).bind (fun v => if 0 ≤ v then strings.get? v.toNat else none)

/-- getNodeName from the source.  When the node type enum is undefined the
source indexes undefined and throws a TypeError, modelled as Except.error;
otherwise it returns null unless the decoded type is "object", in which
case it returns the strings entry indexed by the name field. -/
def getNodeName (nodes : List JVal) (strings : List String) (tEnum : Option (List String))
    (toff noff : Option Nat) (i : Nat) : Except String (Option String) :=
  match tEnum with
  | none => .error "TypeError"
  | some enum =>
    if decodedType nodes enum toff i ≠ some "object" then .ok none
    else .ok (nameAt nodes strings noff i)

/-- getNodeName applied to a snapshot the way the Snapshot wrapper does. -/
def getNodeNameAt (d : HeapSnapshot) (i : Nat) : Except String (Option String) :=
  getNodeName d.nodes d.strings (nodeTypeEnum d) (nodeOffsets d "type") (nodeOffsets d "name") i

/-- getField from the source: nodes[offset + index]. -/
def getField (nodes : List JVal) (offset : Nat) (index : Int) : JVal :=
  jsGet nodes ((offset : Int) + index)

/-- The guard `!nodeName || !WeakRetainerNames.has(nodeName)` from clean(),
negated: the node is pruned exactly when its name is truthy and a member of
the weak-retainer set. -/
def retainerCond (r : Option String) : Bool :=
  jsTruthyStr r && decide ((r.getD "") ∈ WeakRetainerNames)

/-- The start indices visited by iterateBySlice(start, stop, step) in the
source: for (i = start; i < stop; i += step).  A step of 0 loops forever in
the source when start < stop; the model returns no indices and theorems
whose inputs could hit that case carry positivity hypotheses. -/
def iterateBySlice (start stop step : Nat) : List Nat :=
  if step = 0 then []
  else (List.range ((stop - start + step - 1) / step)).map (fun k => start + k * step)

/-- iterateBySlice over JavaScript number bounds that may be NaN: a NaN
bound makes every comparison i < stop false, so no iteration runs. -/
def iterateBySliceI (start stop : Option Int) (step : Nat) : List Int :=
  match start, stop with
  | some s, some e =>
    if step = 0 then []
    else (List.range (((e - s).toNat + step - 1) / step)).map (fun k => s + (k * step : Nat))
  | _, _ => []

/-- cleanupRetainers from the source, acting on (nodes, edges, live
snapshot.edge_count).  For each chunk [edgeStart, edgeStart + efc) of
[start, nextEdgeIndex) it nulls the chunk positions in edges, decrements
the live global edge count, and decrements nodes[startOffset + edgeCount]
where edgeCount is the total edge count captured before the walk. -/
def cleanupRetainers (nodes : List JVal) (edges : List JVal) (liveEdgeCount : Int)
    (edgeCount : Int) (startOffset : Nat) (start nextEdgeIndex : Option Int) (efc : Nat) :
    List JVal × List JVal × Int :=
  (iterateBySliceI start nextEdgeIndex efc).foldl
    (fun st edgeStart =>
      let edges' := (List.range efc).foldl
        (fun es k => jsSet es (edgeStart + (k : Int)) none) st.2.1
      let key : Int := (startOffset : Int) + edgeCount
      let nodes' := jsSet st.1 key (Option.map (· - 1) (jsGet st.1 key))
      (nodes', edges', st.2.2 - 1))
    (nodes, edges, liveEdgeCount)

/-- The constants the clean() walk captures before the node loop. -/
structure CleanCtx where
  edgeCount : Int
  efc : Nat
  strings : List String
  tEnum : Option (List String)
  toff : Option Nat
  noff : Option Nat
deriving DecidableEq, Repr

/-- The mutable state of the clean() walk. -/
structure CleanState where
  nodes : List JVal
  edges : List JVal
  edge_count : Int
  nextEdgeIndex : Option Int
  weakRetainers : Nat
  totalObjects : Nat
deriving DecidableEq, Repr

/-- The cursor update nextEdgeIndex + ownedEdgeCount + edgeFieldsCount,
with ownedEdgeCount = getField(nodes, startOffset, edgeCount). -/
def newCursor (ctx : CleanCtx) (st : CleanState) (startOffset : Nat) : Option Int :=
  oadd (oadd st.nextEdgeIndex (getField st.nodes startOffset ctx.edgeCount)) (some (ctx.efc : Int))

/-- The per-node effect when the node is not pruned: cursor advance and
object counter only. -/
def advanceOnly (ctx : CleanCtx) (st : CleanState) (startOffset : Nat) : CleanState :=
  { st with nextEdgeIndex := newCursor ctx st startOffset,
            totalObjects := st.totalObjects + 1 }

/-- The per-node effect when the node is pruned: cursor advance, retainer
counter, and cleanupRetainers over [old cursor, new cursor). -/
def applyCleanup (ctx : CleanCtx) (st : CleanState) (startOffset : Nat) : CleanState :=
  let c := cleanupRetainers st.nodes st.edges st.edge_count ctx.edgeCount startOffset
    st.nextEdgeIndex (newCursor ctx st startOffset) ctx.efc
  { nodes := c.1, edges := c.2.1, edge_count := c.2.2,
    nextEdgeIndex := newCursor ctx st startOffset,
    weakRetainers := st.weakRetainers + 1,
    totalObjects := st.totalObjects + 1 }

/-- One iteration of the clean() node loop at slice start startOffset. -/
def cleanStep (ctx : CleanCtx) (st : CleanState) (startOffset : Nat) :
    Except String CleanState :=
  match getNodeName st.nodes ctx.strings ctx.tEnum ctx.toff ctx.noff startOffset with
  | .error e => .error e
  | .ok nodeName =>
    if retainerCond nodeName then .ok (applyCleanup ctx st startOffset)
    else .ok (advanceOnly ctx st startOffset)

/-- The captured constants for a given snapshot. -/
def mkCtx (d : HeapSnapshot) : CleanCtx :=
  { edgeCount := d.snapshot.edge_count,
    efc := d.snapshot.meta.edge_fields.length,
    strings := d.strings,
    tEnum := nodeTypeEnum d,
    toff := nodeOffsets d "type",
    noff := nodeOffsets d "name" }

/-- The walk state before the first node slice. -/
def initState (d : HeapSnapshot) : CleanState :=
  { nodes := d.nodes, edges := d.edges, edge_count := d.snapshot.edge_count,
    nextEdgeIndex := some 0, weakRetainers := 0, totalObjects := 0 }

/-- The node slice starts visited by clean(): iterateBySlice(0,
nodes.length, node_fields.length). -/
def cleanSlices (d : HeapSnapshot) : List Nat :=
  iterateBySlice 0 d.nodes.length d.snapshot.meta.node_fields.length

/-- The whole first pass of clean() as a monadic fold over the slices. -/
def cleanFold (d : HeapSnapshot) : Except String CleanState :=
  (cleanSlices d).foldlM (cleanStep (mkCtx d)) (initState d)

/-- Snapshot.clean() from the source: first pass tombstoning, second pass
edges.filter(v => v !== null), result Boolean(weakRetainers > 0).  The
filter keeps exactly the slots still holding a number: nulled slots and
holes from array extension are dropped, matching filter semantics on the
mutated array. -/
def clean (d : HeapSnapshot) : Except String (HeapSnapshot × Bool) :=
  match cleanFold d with
  | .error e => .error e
  | .ok st =>
    .ok ({ d with
            snapshot := { d.snapshot with edge_count := st.edge_count },
            nodes := st.nodes,
            edges := st.edges.filter (fun v => v.isSome) },
         decide (0 < st.weakRetainers))

/-- The walk state after the first k node slices. -/
def statesUpTo (ctx : CleanCtx) (l : List Nat) (st : CleanState) (k : Nat) :
    Except String CleanState :=
  (l.take k).foldlM (cleanStep ctx) st

/-- Whether the walk at state st classifies the node slice at startOffset
as a weak retainer (getNodeName succeeds with a name in the set). -/
def retainerCondAtB (ctx : CleanCtx) (st : CleanState) (startOffset : Nat) : Bool :=
  match getNodeName st.nodes ctx.strings ctx.tEnum ctx.toff ctx.noff startOffset with
  | .ok r => retainerCond r
  | .error _ => false

/-- Whether the walk over slice list l from state st classifies its k-th
slice as a weak retainer, evaluated in the state reached after k steps. -/
def classifiedFromB (ctx : CleanCtx) (l : List Nat) (st : CleanState) (k : Nat) : Bool :=
  match statesUpTo ctx l st k, l.get? k with
  | .ok st', some off => retainerCondAtB ctx st' off
  | _, _ => false

/-- Whether clean() on snapshot d classifies its k-th traversed node as a
weak retainer. -/
def classifiedAt (d : HeapSnapshot) (k : Nat) : Prop :=
  classifiedFromB (mkCtx d) (cleanSlices d) (initState d) k = true

/-- The sum of the per-node edge-count fields read at the schema-declared
edge_count offset: the quantity the count invariant of the specification
speaks about. -/
def sumNodeEdgeCounts (d : HeapSnapshot) : Int :=
  match fieldOffsets d.snapshot.meta.node_fields "edge_count" with
  | none => 0
  | some off =>
    ((iterateBySlice 0 d.nodes.length d.snapshot.meta.node_fields.length).map
      (fun s => (jsGet d.nodes ((s : Int) + (off : Int))).getD 0)).sum

/-- The edge-array run of node i as the specification defines it: the
cursor is the sum of the preceding nodes edge counts (each read at the
schema edge_count offset) times the edge stride, and the run length is
the own edge count times the edge stride. -/
def specNodeRun (d : HeapSnapshot) (i : Nat) : List JVal :=
  match fieldOffsets d.snapshot.meta.node_fields "edge_count" with
  | none => []
  | some off =>
    let stride := d.snapshot.meta.node_fields.length
    let efc := d.snapshot.meta.edge_fields.length
    let owned := fun (j : Nat) =>
      ((jsGet d.nodes ((j * stride + off : Nat) : Int)).getD 0).toNat
    let cursor := ((List.range i).map (fun j => owned j * efc)).sum
    (d.edges.drop cursor).take (owned i * efc)

/-- JSON.stringify of a plain string (no escaping needed for the ASCII
names used here). -/
def jsonString (s : String) : String := "\"" ++ s ++ "\""

/-- JSON.stringify of a string array. -/
def jsonStringList (l : List String) : String :=
  "[" ++ String.intercalate "," (l.map jsonString) ++ "]"

/-- JSON.stringify of an array of string arrays. -/
def jsonStringListList (l : List (List String)) : String :=
  "[" ++ String.intercalate "," (l.map jsonStringList) ++ "]"

/-- JSON.stringify of a numeric array slot: numbers print as integers;
null, holes and NaN all print as null. -/
def jsonNumList (l : List JVal) : String :=
  "[" ++ String.intercalate ","
    (l.map (fun v => match v with | some n => toString n | none => "null")) ++ "]"

/-- JSON.stringify of the meta object (keys in file order). -/
def jsonMeta (m : HeapSnapshotMeta) : String :=
  "\x7b\"node_fields\":" ++ jsonStringList m.node_fields ++
  ",\"node_types\":" ++ jsonStringListList m.node_types ++
  ",\"edge_fields\":" ++ jsonStringList m.edge_fields ++
  ",\"edge_types\":" ++ jsonStringListList m.edge_types ++ "\x7d"

/-- JSON.stringify of the snapshot header object. -/
def jsonHeader (h : SnapshotHeader) : String :=
  "\x7b\"meta\":" ++ jsonMeta h.meta ++
  ",\"node_count\":" ++ toString h.node_count ++
  ",\"edge_count\":" ++ toString h.edge_count ++ "\x7d"

/-- writeOutput from the source, as the concatenation of the strings the
successive writer.write calls emit: the header under the key "meta" with a
trailing comma, nodes with a trailing comma, edges followed by a closing
brace, strings followed by another closing brace, then every remaining
top-level key with a trailing comma and no final closing brace. -/
def writeOutput (d : HeapSnapshot) : String :=
  "\x7b \"meta\": " ++ jsonHeader d.snapshot ++ "," ++
  "\"nodes\": " ++ jsonNumList d.nodes ++ "," ++
  "\"edges\": " ++ jsonNumList d.edges ++ "\x7d" ++
  "\"strings\": " ++ jsonStringList d.strings ++ "\x7d" ++
  String.join (d.rest.map (fun kv => "\"" ++ kv.1 ++ "\": " ++ kv.2 ++ ","))

/-- JSON.stringify(snapshot.data) as the other variant of the source
serializes it: one JSON object with the top-level keys in insertion order
(snapshot, nodes, edges, strings, then the remaining keys). -/
def jsonStringifyData (d : HeapSnapshot) : String :=
  "\x7b\"snapshot\":" ++ jsonHeader d.snapshot ++
  ",\"nodes\":" ++ jsonNumList d.nodes ++
  ",\"edges\":" ++ jsonNumList d.edges ++
  ",\"strings\":" ++ jsonStringList d.strings ++
  String.join (d.rest.map (fun kv => ",\"" ++ kv.1 ++ "\":" ++ kv.2)) ++ "\x7d"

/-- What main() writes: the serialized data when clean() returned true,
nothing when it returned false (the already-clean short circuit) or threw. -/
def mainOutput (d : HeapSnapshot) : Option String :=
  match clean d with
  | .ok (d', true) => some (jsonStringifyData d')
  | _ => none

/-- Scanner state for the single-JSON-object shape check. -/
structure JsonScan where
  inStr : Bool
  esc : Bool
  depth : Nat
  opened : Bool
  closed : Bool
  bad : Bool
deriving DecidableEq, Repr

/-- One character of the shape scan: tracks string literals with escapes,
bracket depth, whether the first token opened an object, whether the
top-level value has closed, and flags any non-whitespace after it. -/
def jsonScanStep (st : JsonScan) (c : Char) : JsonScan :=
  if st.bad then st
  else if st.inStr then
    if st.esc then { st with esc := false }
    else if c = '\\' then { st with esc := true }
    else if c = '"' then { st with inStr := false }
    else st
  else if c = ' ' ∨ c = '\n' ∨ c = '\t' ∨ c = '\r' then st
  else if st.closed then { st with bad := true }
  else if c = '\x7b' ∨ c = '[' then
    if st.opened then { st with depth := st.depth + 1 }
    else if c = '\x7b' then { st with opened := true, depth := 1 }
    else { st with bad := true }
  else if c = '\x7d' ∨ c = ']' then
    if st.depth = 0 then { st with bad := true }
    else if st.depth = 1 then { st with depth := 0, closed := true }
    else { st with depth := st.depth - 1 }
  else if st.opened then
    if c = '"' then { st with inStr := true } else st
  else { st with bad := true }

/-- A necessary condition for a text to be one syntactically valid JSON
object: it opens with a brace, its brackets balance outside string
literals, and nothing but whitespace follows the position where the
top-level object closes.  Every valid single JSON object passes this
check, so failing it refutes validity. -/
def balancedSingleObject (s : String) : Bool :=
  let st := s.toList.foldl jsonScanStep
    { inStr := false, esc := false, depth := 0, opened := false, closed := false, bad := false }
  st.opened && st.closed && !st.bad && !st.inStr && decide (st.depth = 0)

instance {ε α : Type} [DecidableEq ε] [DecidableEq α] : DecidableEq (Except ε α) :=
  fun a b =>
    match a, b with
    | .error e, .error f => decidable_of_iff (e = f) (by simp)
    | .error _, .ok _ => .isFalse (by simp)
    | .ok _, .error _ => .isFalse (by simp)
    | .ok x, .ok y => decidable_of_iff (x = y) (by simp)

/-- A three-field node schema (type, name, edge_count) shared by the
concrete test snapshots, with the standard three edge fields. -/
def meta3 : HeapSnapshotMeta :=
  { node_fields := ["type", "name", "edge_count"],
    node_types := [["object"]],
    edge_fields := ["type", "name_or_index", "to_node"],
    edge_types := [["property"]] }

/-- One non-retainer object node named Foo with 2 edges; the total edge
count 2 coincides with the schema offset of edge_count, so the walk reads
the intended per-node count and the only divergence left visible is the
cursor arithmetic. -/
def ex1 : HeapSnapshot :=
  { snapshot := { meta := meta3, node_count := 1, edge_count := 2 },
    nodes := [some 0, some 0, some 2],
    edges := [some 40, some 41, some 42, some 43, some 44, some 45],
    strings := ["Foo"], rest := [] }

/-- A four-field node schema where the edge_count offset (3) differs from
the snapshot total edge count (1): one WeakMap node with 1 edge. -/
def ex2 : HeapSnapshot :=
  { snapshot := { meta := { node_fields := ["type", "name", "id", "edge_count"],
                            node_types := [["object"]],
                            edge_fields := ["type", "name_or_index", "to_node"],
                            edge_types := [["property"]] },
                  node_count := 1, edge_count := 1 },
    nodes := [some 0, some 0, some 7, some 1],
    edges := [some 50, some 51, some 52],
    strings := ["WeakMap"], rest := [] }

/-- The state of ex2 after clean(): the name field (offset 1, aliased by
the total edge count 1) was decremented to -1 while the schema edge_count
field at offset 3 kept its value 1. -/
def cleanedEx2 : HeapSnapshot :=
  { snapshot := { meta := ex2.snapshot.meta, node_count := 1, edge_count := 0 },
    nodes := [some 0, some (-1), some 7, some 1],
    edges := [], strings := ["WeakMap"], rest := [] }

/-- A WeakMap node owning 4 edges followed by a non-retainer node owning
0 edges; total edge count 4, twelve edge slots. -/
def ex3 : HeapSnapshot :=
  { snapshot := { meta := meta3, node_count := 2, edge_count := 4 },
    nodes := [some 0, some 0, some 4, some 0, some 4, some 0],
    edges := [some 20, some 21, some 22, some 23, some 24, some 25,
              some 26, some 27, some 28, some 29, some 30, some 31],
    strings := ["WeakMap", "Foo", "x", "y", "Foo2"], rest := [] }

/-- The state of ex3 after clean(): the global count fell by 3 (not 4),
the WeakMap edge_count field still holds 4, the second node name index
was decremented from 4 to 1, and three of the twelve weak edge slots
survived compaction. -/
def cleanedEx3 : HeapSnapshot :=
  { snapshot := { meta := meta3, node_count := 2, edge_count := 1 },
    nodes := [some 0, some 0, some 4, some 0, some 1, some 0],
    edges := [some 29, some 30, some 31],
    strings := ["WeakMap", "Foo", "x", "y", "Foo2"], rest := [] }

/-- One WeakMap node with 1 edge, total edge count 1. -/
def ex4 : HeapSnapshot :=
  { snapshot := { meta := meta3, node_count := 1, edge_count := 1 },
    nodes := [some 0, some 0, some 1],
    edges := [some 5, some 6, some 7],
    strings := ["WeakMap"], rest := [] }

/-- The state of ex4 after clean(): the global count is 0 but the schema
edge_count field of the node still holds 1 (the decrement hit the name
field at offset 1 instead). -/
def cleanedEx4 : HeapSnapshot :=
  { snapshot := { meta := meta3, node_count := 1, edge_count := 0 },
    nodes := [some 0, some (-1), some 1],
    edges := [], strings := ["WeakMap"], rest := [] }

/-- A WeakMap node with 1 edge followed by a non-retainer Foo node with 1
edge; total edge count 2, six edge slots. -/
def ex5 : HeapSnapshot :=
  { snapshot := { meta := meta3, node_count := 2, edge_count := 2 },
    nodes := [some 0, some 0, some 1, some 0, some 1, some 1],
    edges := [some 10, some 11, some 12, some 13, some 14, some 15],
    strings := ["WeakMap", "Foo"], rest := [] }

/-- The state of ex5 after clean(): every edge slot, including the run of
the non-retainer Foo node, was tombstoned, so compaction left nothing. -/
def cleanedEx5 : HeapSnapshot :=
  { snapshot := { meta := meta3, node_count := 2, edge_count := 0 },
    nodes := [some 0, some 0, some (-1), some 0, some 1, some 1],
    edges := [], strings := ["WeakMap", "Foo"], rest := [] }

/-- A minimal empty snapshot for exercising the serializer. -/
def ex6 : HeapSnapshot :=
  { snapshot := { meta := { node_fields := ["type"], node_types := [["a"]],
                            edge_fields := ["type"], edge_types := [["b"]] },
                  node_count := 0, edge_count := 0 },
    nodes := [], edges := [], strings := [], rest := [] }

/-- The same snapshot as ex3, used to exercise a second clean() pass. -/
def ex7 : HeapSnapshot :=
  { snapshot := { meta := meta3, node_count := 2, edge_count := 4 },
    nodes := [some 0, some 0, some 4, some 0, some 4, some 0],
    edges := [some 20, some 21, some 22, some 23, some 24, some 25,
              some 26, some 27, some 28, some 29, some 30, some 31],
    strings := ["WeakMap", "Foo", "x", "y", "Foo2"], rest := [] }

/-- The state of ex7 after one clean() pass. -/
def ex7Once : HeapSnapshot :=
  { snapshot := { meta := meta3, node_count := 2, edge_count := 1 },
    nodes := [some 0, some 0, some 4, some 0, some 1, some 0],
    edges := [some 29, some 30, some 31],
    strings := ["WeakMap", "Foo", "x", "y", "Foo2"], rest := [] }

/-- The state of ex7 after a second clean() pass: the WeakMap node is
classified again (classification is by name only), the surviving edges are
tombstoned, the global count falls further and the name index of the
second node is corrupted. -/
def ex7Twice : HeapSnapshot :=
  { snapshot := { meta := meta3, node_count := 2, edge_count := 0 },
    nodes := [some 0, some (-1), some 4, some 0, some 1, some 0],
    edges := [],
    strings := ["WeakMap", "Foo", "x", "y", "Foo2"], rest := [] }

/-- One WeakMap object node with 1 edge, used to witness the dirty-flag
characterization on an input that clean() does modify. -/
def ex8 : HeapSnapshot :=
  { snapshot := { meta := meta3, node_count := 1, edge_count := 1 },
    nodes := [some 0, some 0, some 1],
    edges := [some 8, some 9, some 10],
    strings := ["WeakMap"], rest := [] }

/-- A snapshot with an empty node_types table: the node type enum does not
resolve and the classifier throws on its first node. -/
def ex9 : HeapSnapshot :=
  { snapshot := { meta := { node_fields := ["type", "name", "edge_count"], node_types := [],
                            edge_fields := ["type", "name_or_index", "to_node"],
                            edge_types := [["property"]] },
                  node_count := 1, edge_count := 0 },
    nodes := [some 0, some 0, some 0],
    edges := [], strings := ["Foo"], rest := [] }

/-- A snapshot with an empty node_types table and no weak-retainer node:
clean() throws instead of returning false. -/
def ex10 : HeapSnapshot :=
  { snapshot := { meta := { node_fields := ["type", "name", "edge_count"], node_types := [],
                            edge_fields := ["type", "name_or_index", "to_node"],
                            edge_types := [["property"]] },
                  node_count := 1, edge_count := 0 },
    nodes := [some 0, some 0, some 0],
    edges := [], strings := ["Foo"], rest := [] }

/-- A well-formed snapshot with a single non-retainer Foo node. -/
def ex10w : HeapSnapshot :=
  { snapshot := { meta := meta3, node_count := 1, edge_count := 1 },
    nodes := [some 0, some 0, some 1],
    edges := [some 1, some 2, some 3],
    strings := ["Foo"], rest := [] }

/-- C1: the claim states the cursor advances by ownedEdgeCount times
edgeStride for every node.  On ex1 the node owns 2 edges and the stride is
3, so the claimed advance is 6; the code computes nextEdgeIndex +
ownedEdgeCount + edgeFieldsCount and advances the cursor from 0 to 5. -/
theorem C1_cursor_advance_bug :
    Except.map (fun st => st.nextEdgeIndex)
      (statesUpTo (mkCtx ex1) (cleanSlices ex1) (initState ex1) 1) = .ok (some 5) ∧
    getField ex1.nodes 0 ex1.snapshot.edge_count = some 2 ∧
    (mkCtx ex1).efc = 3 ∧ (5 : Int) ≠ 2 * 3 := by decide

/-- C2: the claim states the per-node edge count is read at the schema
offset of the edge_count field.  On ex2 that offset is 3 and the field
holds 1, but the code indexes the node record with the snapshot total
edge count (1): it reads the name field, and the cleanup decrement lands
on the name field (decremented to -1) while the schema edge_count field
keeps its value 1. -/
theorem C2_edge_count_offset_bug :
    fieldOffsets ex2.snapshot.meta.node_fields "edge_count" = some 3 ∧
    jsGet ex2.nodes 3 = some 1 ∧
    ex2.snapshot.edge_count = 1 ∧
    getField ex2.nodes 0 ex2.snapshot.edge_count = some 0 ∧
    clean ex2 = .ok (cleanedEx2, true) := by decide

/-- C3: the claim states pruning a weak retainer decrements the global
count by exactly its owned edge count, zeroes its own edge_count field and
tombstones exactly its run.  On ex3 the WeakMap node owns 4 edges (run of
12 slots), but clean() decrements the global count only 3 times (4 to 1),
leaves the schema edge_count field of the node at 4, corrupts the name
index of the following node, and leaves 3 weak edge slots alive. -/
theorem C3_pruning_accounting_bug :
    getField ex3.nodes 0 ex3.snapshot.edge_count = some 4 ∧
    clean ex3 = .ok (cleanedEx3, true) ∧
    cleanedEx3.snapshot.edge_count = 1 ∧
    jsGet cleanedEx3.nodes 2 = some 4 ∧
    cleanedEx3.edges = [some 29, some 30, some 31] := by decide

/-- C4: the claim states that after clean() the global edge count equals
the sum of the per-node edge_count fields and equals edges.length divided
by the edge stride.  On ex4 the cleaned snapshot has global count 0 and
empty edges but the per-node field sum is 1. -/
theorem C4_count_invariant_bug :
    clean ex4 = .ok (cleanedEx4, true) ∧
    cleanedEx4.snapshot.edge_count = 0 ∧
    cleanedEx4.edges.length = 0 ∧
    sumNodeEdgeCounts cleanedEx4 = 1 := by decide

/-- C5: the claim states non-retainer nodes keep their edge records.  On
ex5 the second node is a Foo object, not a weak retainer, and its edge
run per the schema is the records 13, 14, 15; after clean() the edge
array is empty, so its records did not survive. -/
theorem C5_non_retainer_clobbered :
    getNodeNameAt ex5 3 = .ok (some "Foo") ∧
    "Foo" ∉ WeakRetainerNames ∧
    specNodeRun ex5 1 = [some 13, some 14, some 15] ∧
    clean ex5 = .ok (cleanedEx5, true) ∧
    cleanedEx5.edges = [] := by decide

set_option maxRecDepth 8192 in
/-- C6: the claim states the serializer emits one syntactically valid
JSON object whose top key order starts with meta.  The writeOutput text
for ex6 closes the top-level object right after the edges entry and then
keeps writing a strings entry and a stray closing brace, so it fails the
single-object shape check that every valid single JSON object passes;
the first characters show the header is emitted under the key meta. -/
theorem C6_serializer_invalid_json :
    balancedSingleObject (writeOutput ex6) = false ∧
    (writeOutput ex6).take 10 = "\x7b \"meta\": " := by decide

/-- C7: the claim states cleaning is idempotent and that a second pass
finds zero weak retainers and returns false.  On ex7 the first clean()
returns true, and running clean() on its result classifies the WeakMap
node again, returns true again, and changes the data further. -/
theorem C7_not_idempotent :
    clean ex7 = .ok (ex7Once, true) ∧
    clean ex7Once = .ok (ex7Twice, true) ∧
    ex7Twice ≠ ex7Once := by decide

theorem statesUpTo_zero (ctx : CleanCtx) (l : List Nat) (st : CleanState) :
    statesUpTo ctx l st 0 = .ok st := rfl

theorem statesUpTo_shift (ctx : CleanCtx) (off : Nat) (l : List Nat) (st st1 : CleanState)
    (h : cleanStep ctx st off = .ok st1) (k : Nat) :
    statesUpTo ctx (off :: l) st (k + 1) = statesUpTo ctx l st1 k := by
  unfold statesUpTo
  rw [List.take_succ_cons, List.foldlM_cons, h]
  rfl

theorem classifiedFromB_expand (ctx : CleanCtx) (l : List Nat) (st : CleanState) (k : Nat)
    (st' : CleanState) (h : statesUpTo ctx l st k = .ok st') :
    classifiedFromB ctx l st k =
      ((l.get? k).map (fun off => retainerCondAtB ctx st' off)).getD false := by
  unfold classifiedFromB
  rw [h]
  cases l.get? k <;> rfl

theorem classifiedFromB_error (ctx : CleanCtx) (l : List Nat) (st : CleanState) (k : Nat)
    (e : String) (h : statesUpTo ctx l st k = .error e) :
    classifiedFromB ctx l st k = false := by
  unfold classifiedFromB
  rw [h]

theorem classifiedFromB_nil (ctx : CleanCtx) (st : CleanState) (k : Nat) :
    classifiedFromB ctx [] st k = false := by
  have hs : statesUpTo ctx [] st k = .ok st := by
    unfold statesUpTo
    rw [List.take_nil]
    rfl
  rw [classifiedFromB_expand ctx [] st k st hs]
  cases k <;> rfl

theorem classifiedFromB_zero (ctx : CleanCtx) (off : Nat) (l : List Nat) (st : CleanState) :
    classifiedFromB ctx (off :: l) st 0 = retainerCondAtB ctx st off := rfl

theorem classifiedFromB_shift (ctx : CleanCtx) (off : Nat) (l : List Nat) (st st1 : CleanState)
    (h : cleanStep ctx st off = .ok st1) (k : Nat) :
    classifiedFromB ctx (off :: l) st (k + 1) = classifiedFromB ctx l st1 k := by
  unfold classifiedFromB
  rw [statesUpTo_shift ctx off l st st1 h k]
  rfl

theorem classifiedFromB_of_length_le (ctx : CleanCtx) (l : List Nat) (st : CleanState)
    (k : Nat) (h : l.length ≤ k) : classifiedFromB ctx l st k = false := by
  cases hs : statesUpTo ctx l st k with
  | error e => exact classifiedFromB_error ctx l st k e hs
  | ok st' =>
    rw [classifiedFromB_expand ctx l st k st' hs, List.get?_eq_none.mpr h]
    rfl

theorem getNodeName_none (nodes : List JVal) (strings : List String) (toff noff : Option Nat)
    (i : Nat) : getNodeName nodes strings none toff noff i = .error "TypeError" := rfl

theorem getNodeName_ok_of_enum (nodes : List JVal) (strings : List String)
    (enum : List String) (toff noff : Option Nat) (i : Nat) :
    getNodeName nodes strings (some enum) toff noff i =
      .ok (if decodedType nodes enum toff i ≠ some "object" then none
           else nameAt nodes strings noff i) := by
  show (if decodedType nodes enum toff i ≠ some "object" then (Except.ok none : Except String (Option String))
        else .ok (nameAt nodes strings noff i)) = _
  split <;> rfl

theorem retainerCondAtB_none (ctx : CleanCtx) (h : ctx.tEnum = none) (st : CleanState)
    (off : Nat) : retainerCondAtB ctx st off = false := by
  unfold retainerCondAtB
  rw [h, getNodeName_none]

theorem classifiedFromB_none (ctx : CleanCtx) (h : ctx.tEnum = none) (l : List Nat)
    (st : CleanState) (k : Nat) : classifiedFromB ctx l st k = false := by
  cases hs : statesUpTo ctx l st k with
  | error e => exact classifiedFromB_error ctx l st k e hs
  | ok st' =>
    rw [classifiedFromB_expand ctx l st k st' hs]
    cases l.get? k with
    | none => rfl
    | some off => exact retainerCondAtB_none ctx h st' off

theorem cleanStep_eq (ctx : CleanCtx) (st : CleanState) (off : Nat) (r : Option String)
    (hg : getNodeName st.nodes ctx.strings ctx.tEnum ctx.toff ctx.noff off = .ok r) :
    cleanStep ctx st off =
      .ok (if retainerCond r then applyCleanup ctx st off else advanceOnly ctx st off) ∧
    retainerCondAtB ctx st off = retainerCond r := by
  unfold cleanStep retainerCondAtB
  rw [hg]
  constructor
  · show (if retainerCond r then (Except.ok (applyCleanup ctx st off) : Except String CleanState)
          else .ok (advanceOnly ctx st off)) = _
    split <;> rfl
  · rfl

theorem cleanStep_error_tEnum (ctx : CleanCtx) (st : CleanState) (off : Nat) (e : String)
    (h : cleanStep ctx st off = .error e) : ctx.tEnum = none := by
  cases htE : ctx.tEnum with
  | none => rfl
  | some enum =>
    exfalso
    have hg : getNodeName st.nodes ctx.strings ctx.tEnum ctx.toff ctx.noff off =
        .ok (if decodedType st.nodes enum ctx.toff off ≠ some "object" then none
             else nameAt st.nodes ctx.strings ctx.noff off) := by
      rw [htE]; exact getNodeName_ok_of_enum st.nodes ctx.strings enum ctx.toff ctx.noff off
    have hc := (cleanStep_eq ctx st off _ hg).1
    rw [hc] at h
    exact Except.noConfusion h

theorem foldlM_error_tEnum (ctx : CleanCtx) : ∀ (l : List Nat) (st : CleanState) (e : String),
    l.foldlM (cleanStep ctx) st = .error e → ctx.tEnum = none := by
  intro l
  induction l with
  | nil => intro st e h; exact Except.noConfusion h
  | cons a l ih =>
    intro st e h
    rw [List.foldlM_cons] at h
    cases hstep : cleanStep ctx st a with
    | error e2 => exact cleanStep_error_tEnum ctx st a e2 hstep
    | ok st1 =>
      rw [hstep] at h
      exact ih st1 e h

theorem cleanStep_wr (ctx : CleanCtx) (st : CleanState) (off : Nat) (st1 : CleanState)
    (h : cleanStep ctx st off = .ok st1) :
    st.weakRetainers ≤ st1.weakRetainers ∧
    (retainerCondAtB ctx st off = true → st.weakRetainers < st1.weakRetainers) ∧
    (retainerCondAtB ctx st off = false → st1.weakRetainers = st.weakRetainers ∧
      st1.nodes = st.nodes ∧ st1.edges = st.edges ∧ st1.edge_count = st.edge_count) := by
  cases hg : getNodeName st.nodes ctx.strings ctx.tEnum ctx.toff ctx.noff off with
  | error e =>
    exfalso
    unfold cleanStep at h
    rw [hg] at h
    exact Except.noConfusion h
  | ok r =>
    obtain ⟨he, hb⟩ := cleanStep_eq ctx st off r hg
    rw [he] at h
    have hst : st1 = if retainerCond r then applyCleanup ctx st off else advanceOnly ctx st off :=
      (Except.ok.inj h).symm
    rw [hb]
    by_cases hc : retainerCond r
    · subst hst
      simp [hc, applyCleanup]
    · subst hst
      simp [hc, advanceOnly]

theorem foldlM_wr_mono (ctx : CleanCtx) : ∀ (l : List Nat) (st st' : CleanState),
    l.foldlM (cleanStep ctx) st = .ok st' → st.weakRetainers ≤ st'.weakRetainers := by
  intro l
  induction l with
  | nil =>
    intro st st' h
    exact le_of_eq (congrArg CleanState.weakRetainers (Except.ok.inj h))
  | cons a l ih =>
    intro st st' h
    rw [List.foldlM_cons] at h
    cases hstep : cleanStep ctx st a with
    | error e => rw [hstep] at h; exact Except.noConfusion h
    | ok st1 =>
      rw [hstep] at h
      exact le_trans (cleanStep_wr ctx st a st1 hstep).1 (ih st1 st' h)

theorem foldlM_wr_iff (ctx : CleanCtx) : ∀ (l : List Nat) (st st' : CleanState),
    l.foldlM (cleanStep ctx) st = .ok st' →
    (st.weakRetainers < st'.weakRetainers ↔ ∃ k, classifiedFromB ctx l st k = true) := by
  intro l
  induction l with
  | nil =>
    intro st st' h
    have hst : st = st' := Except.ok.inj h
    subst hst
    simp [classifiedFromB_nil]
  | cons a l ih =>
    intro st st' h
    rw [List.foldlM_cons] at h
    cases hstep : cleanStep ctx st a with
    | error e => rw [hstep] at h; exact Except.noConfusion h
    | ok st1 =>
      rw [hstep] at h
      have h2 : l.foldlM (cleanStep ctx) st1 = .ok st' := h
      obtain ⟨hmono1, hlt, hfr⟩ := cleanStep_wr ctx st a st1 hstep
      have hmono2 := foldlM_wr_mono ctx l st1 st' h2
      by_cases hc : retainerCondAtB ctx st a = true
      · constructor
        · intro _
          exact ⟨0, by rw [classifiedFromB_zero]; exact hc⟩
        · intro _
          exact lt_of_lt_of_le (hlt hc) hmono2
      · have hc' : retainerCondAtB ctx st a = false := by
          cases hbv : retainerCondAtB ctx st a
          · rfl
          · exact absurd hbv hc
        obtain ⟨hwr, _, _, _⟩ := hfr hc'
        have hiff := ih st1 st' h2
        constructor
        · intro hlt2
          obtain ⟨k, hk⟩ := hiff.mp (by omega)
          exact ⟨k + 1, by rw [classifiedFromB_shift ctx a l st st1 hstep k]; exact hk⟩
        · rintro ⟨k, hk⟩
          cases k with
          | zero =>
            rw [classifiedFromB_zero, hc'] at hk
            exact Bool.noConfusion hk
          | succ k =>
            rw [classifiedFromB_shift ctx a l st st1 hstep k] at hk
            have := hiff.mpr ⟨k, hk⟩
            omega

theorem foldlM_frame (ctx : CleanCtx) (enum : List String) (htE : ctx.tEnum = some enum) :
    ∀ (l : List Nat) (st : CleanState),
    (∀ k, classifiedFromB ctx l st k = false) →
    ∃ st', l.foldlM (cleanStep ctx) st = .ok st' ∧ st'.nodes = st.nodes ∧
      st'.edges = st.edges ∧ st'.edge_count = st.edge_count ∧
      st'.weakRetainers = st.weakRetainers := by
  intro l
  induction l with
  | nil => intro st _; exact ⟨st, rfl, rfl, rfl, rfl, rfl⟩
  | cons a l ih =>
    intro st hnc
    have hg : getNodeName st.nodes ctx.strings ctx.tEnum ctx.toff ctx.noff a =
        .ok (if decodedType st.nodes enum ctx.toff a ≠ some "object" then none
             else nameAt st.nodes ctx.strings ctx.noff a) := by
      rw [htE]; exact getNodeName_ok_of_enum st.nodes ctx.strings enum ctx.toff ctx.noff a
    obtain ⟨he, hb⟩ := cleanStep_eq ctx st a _ hg
    have hc0 : retainerCondAtB ctx st a = false := by
      have h0 := hnc 0
      rwa [classifiedFromB_zero] at h0
    rw [hb] at hc0
    rw [hc0] at he
    simp only [Bool.false_eq_true, if_false] at he
    obtain ⟨st', hfold, hn, hedg, hec, hwr⟩ := ih (advanceOnly ctx st a) (fun k => by
      have hk := hnc (k + 1)
      rwa [classifiedFromB_shift ctx a l st _ he k] at hk)
    refine ⟨st', ?_, ?_, ?_, ?_, ?_⟩
    · rw [List.foldlM_cons, he]; exact hfold
    · rw [hn]; rfl
    · rw [hedg]; rfl
    · rw [hec]; rfl
    · rw [hwr]; rfl

theorem clean_of_fold_frame (d : HeapSnapshot) (st' : CleanState)
    (hF : cleanFold d = .ok st')
    (hn : st'.nodes = d.nodes) (hedg : st'.edges = d.edges)
    (hec : st'.edge_count = d.snapshot.edge_count) (hwr : st'.weakRetainers = 0)
    (hfilter : d.edges.filter (fun v => v.isSome) = d.edges) :
    clean d = .ok (d, false) := by
  unfold clean
  rw [hF]
  show Except.ok ({ d with
      snapshot := { d.snapshot with edge_count := st'.edge_count },
      nodes := st'.nodes,
      edges := st'.edges.filter (fun v => v.isSome) },
    decide (0 < st'.weakRetainers)) = .ok (d, false)
  rw [hn, hedg, hec, hwr, hfilter]
  rfl

theorem iterateBySlice_zero_stop (step : Nat) : iterateBySlice 0 0 step = [] := by
  unfold iterateBySlice
  split
  · rfl
  · rename_i hstep
    have hd : (0 - 0 + step - 1) / step = 0 := Nat.div_eq_of_lt (by omega)
    rw [hd]
    rfl

theorem cleanSlices_nil (d : HeapSnapshot) (h : d.nodes = []) : cleanSlices d = [] := by
  unfold cleanSlices
  rw [h]
  exact iterateBySlice_zero_stop _

theorem mem_weak_ne_empty (s : String) (h : s ∈ WeakRetainerNames) : s ≠ "" := by
  simp only [WeakRetainerNames, List.mem_cons, List.not_mem_nil, or_false] at h
  rcases h with rfl | rfl | rfl | rfl | rfl <;> decide

theorem retainerCond_iff (r : Option String) :
    retainerCond r = true ↔ ∃ n, r = some n ∧ n ∈ WeakRetainerNames := by
  cases r with
  | none => simp [retainerCond, jsTruthyStr]
  | some s =>
    simp only [retainerCond, jsTruthyStr, Option.getD_some, Bool.and_eq_true,
      decide_eq_true_eq, Option.some.injEq]
    constructor
    · rintro ⟨_, hmem⟩
      exact ⟨s, rfl, hmem⟩
    · rintro ⟨n, hn, hmem⟩
      subst hn
      exact ⟨mem_weak_ne_empty _ hmem, hmem⟩

/-- C8: clean() returns true exactly when at least one traversed node
slice is classified as a weak retainer (evaluated in the walk state at
that slice), and whenever it returns false the caller writes no output.
The positivity hypotheses exclude inputs on which the for loops of the
source would not terminate. -/
theorem C8_dirty_iff (d : HeapSnapshot)
    (h1 : 0 < d.snapshot.meta.node_fields.length)
    (h2 : 0 < d.snapshot.meta.edge_fields.length) :
    ((∃ d', clean d = .ok (d', true)) ↔ ∃ k, classifiedAt d k) ∧
    (∀ d', clean d = .ok (d', false) → mainOutput d = none) := by
  refine ⟨?_, ?_⟩
  · cases hF : cleanFold d with
    | error e =>
      constructor
      · rintro ⟨d', hd⟩
        unfold clean at hd
        rw [hF] at hd
        exact Except.noConfusion hd
      · rintro ⟨k, hk⟩
        have htE : (mkCtx d).tEnum = none :=
          foldlM_error_tEnum (mkCtx d) (cleanSlices d) (initState d) e hF
        unfold classifiedAt at hk
        rw [classifiedFromB_none (mkCtx d) htE (cleanSlices d) (initState d) k] at hk
        exact Bool.noConfusion hk
    | ok st =>
      have hiff := foldlM_wr_iff (mkCtx d) (cleanSlices d) (initState d) st hF
      constructor
      · rintro ⟨d', hd⟩
        unfold clean at hd
        rw [hF] at hd
        have hpair : ({ d with
            snapshot := { d.snapshot with edge_count := st.edge_count },
            nodes := st.nodes,
            edges := st.edges.filter (fun v => v.isSome) },
          decide (0 < st.weakRetainers)) = (d', true) := Except.ok.inj hd
        have hflag : decide (0 < st.weakRetainers) = true := congrArg Prod.snd hpair
        have hlt : (initState d).weakRetainers < st.weakRetainers :=
          of_decide_eq_true hflag
        exact hiff.mp hlt
      · intro hcl
        have hlt : (initState d).weakRetainers < st.weakRetainers := hiff.mpr hcl
        have hflag : decide (0 < st.weakRetainers) = true := decide_eq_true hlt
        have hcl2 : clean d = .ok ({ d with
            snapshot := { d.snapshot with edge_count := st.edge_count },
            nodes := st.nodes,
            edges := st.edges.filter (fun v => v.isSome) },
          decide (0 < st.weakRetainers)) := by
          unfold clean
          rw [hF]
        rw [hflag] at hcl2
        exact ⟨_, hcl2⟩
  · intro d' hcl
    unfold mainOutput
    rw [hcl]

/-- C8 witness: the dirty-flag characterization instantiated at ex8. -/
theorem C8_dirty_iff_witness :
    ((∃ d', clean ex8 = .ok (d', true)) ↔ ∃ k, classifiedAt ex8 k) ∧
    (∀ d', clean ex8 = .ok (d', false) → mainOutput ex8 = none) :=
  C8_dirty_iff ex8 (by decide) (by decide)

/-- C9 counterexample: the claim states the classifier never throws, but
on ex9, whose node_types table is empty, the classifier throws a
TypeError at node 0 (whose decoded type is not "object"). -/
theorem C9_classifier_throws : getNodeNameAt ex9 0 = .error "TypeError" := by decide

/-- C9 (amended): when the node type enum does not resolve the classifier
throws; when it resolves the classifier is total and returns no name
whenever the decoded type string is not "object", otherwise the string
table entry indexed by the name field; and a returned name drives pruning
exactly when it is one of the five weak-retainer names. -/
theorem C9_classifier_spec (nodes : List JVal) (strings : List String)
    (tEnum : Option (List String)) (toff noff : Option Nat) (i : Nat) :
    (tEnum = none → getNodeName nodes strings tEnum toff noff i = .error "TypeError") ∧
    (∀ enum, tEnum = some enum →
      (decodedType nodes enum toff i ≠ some "object" →
        getNodeName nodes strings tEnum toff noff i = .ok none) ∧
      (decodedType nodes enum toff i = some "object" →
        getNodeName nodes strings tEnum toff noff i = .ok (nameAt nodes strings noff i)) ∧
      (∀ r, getNodeName nodes strings tEnum toff noff i = .ok r →
        (retainerCond r = true ↔ ∃ n, r = some n ∧ n ∈ WeakRetainerNames))) := by
  refine ⟨?_, ?_⟩
  · intro h; subst h; rfl
  · intro enum h
    subst h
    refine ⟨?_, ?_, ?_⟩
    · intro hne
      rw [getNodeName_ok_of_enum, if_pos hne]
    · intro heq
      rw [getNodeName_ok_of_enum, if_neg (fun hc => hc heq)]
    · intro r _
      exact retainerCond_iff r

/-- C9 witness: the classifier specification instantiated at a concrete
object node whose name resolves to WeakMap. -/
theorem C9_classifier_spec_witness :
    getNodeName [some 0, some 0] ["WeakMap"] (some ["object"]) (some 0) (some 1) 0 =
      .ok (some "WeakMap") := by
  have h := ((C9_classifier_spec [some 0, some 0] ["WeakMap"] (some ["object"])
    (some 0) (some 1) 0).2 ["object"] rfl).2.1 (by decide)
  rw [h]
  decide

/-- C10 counterexample: ex10 has no node that classifies as a weak
retainer, yet clean() does not return false with the data unchanged: it
throws, because the node type enum does not resolve and the classifier
crashes on the first node. -/
theorem C10_throwing_clean :
    clean ex10 = .error "TypeError" ∧ ∀ k, ¬ classifiedAt ex10 k := by
  constructor
  · decide
  · intro k hk
    unfold classifiedAt at hk
    rw [classifiedFromB_none (mkCtx ex10) (by decide) (cleanSlices ex10) (initState ex10) k] at hk
    exact Bool.noConfusion hk

/-- C10 (amended): on a snapshot no node of which classifies as a weak
retainer, whose node type enum resolves (or whose node array is empty, so
that classification never runs), whose node stride is positive (or node
array empty) and whose edge array holds only numbers, clean() returns
false and leaves the snapshot header, nodes, edges and strings unchanged. -/
theorem C10_no_retainer_identity (d : HeapSnapshot)
    (h1 : 0 < d.snapshot.meta.node_fields.length ∨ d.nodes = [])
    (h2 : (nodeTypeEnum d).isSome = true ∨ d.nodes = [])
    (h3 : ∀ e ∈ d.edges, e.isSome = true)
    (h4 : ∀ k, ¬ classifiedAt d k) :
    clean d = .ok (d, false) := by
  have hfilter : d.edges.filter (fun v => v.isSome) = d.edges :=
    List.filter_eq_self.mpr h3
  cases h2 with
  | inr hnil =>
    have hF : cleanFold d = .ok (initState d) := by
      unfold cleanFold
      rw [cleanSlices_nil d hnil]
      rfl
    exact clean_of_fold_frame d (initState d) hF rfl rfl rfl rfl hfilter
  | inl hsome =>
    obtain ⟨enum, henum⟩ := Option.isSome_iff_exists.mp hsome
    have htE : (mkCtx d).tEnum = some enum := henum
    have h4' : ∀ k, classifiedFromB (mkCtx d) (cleanSlices d) (initState d) k = false := by
      intro k
      cases hb : classifiedFromB (mkCtx d) (cleanSlices d) (initState d) k
      · rfl
      · exact absurd hb (h4 k)
    obtain ⟨st', hfold, hn, hedg, hec, hwr⟩ :=
      foldlM_frame (mkCtx d) enum htE (cleanSlices d) (initState d) h4'
    exact clean_of_fold_frame d st' hfold hn hedg hec hwr hfilter

/-- C10 witness: the no-retainer identity instantiated at ex10w. -/
theorem C10_no_retainer_identity_witness : clean ex10w = .ok (ex10w, false) := by
  apply C10_no_retainer_identity ex10w
  · exact Or.inl (by decide)
  · exact Or.inl (by decide)
  · decide
  · intro k
    match k with
    | 0 =>
      intro hk
      unfold classifiedAt at hk
      exact absurd hk (by decide)
    | (k + 1) =>
      intro hk
      unfold classifiedAt at hk
      rw [classifiedFromB_of_length_le (mkCtx ex10w) (cleanSlices ex10w) (initState ex10w)
        (k + 1) (by have : (cleanSlices ex10w).length = 1 := by decide
                    omega)] at hk
      exact Bool.noConfusion hk

end Cleanheap
